import Mathlib

/-!
Shallow embedding of src/server/context.rs from rust-blockchain-2: the peer-to-peer
networking context (readiness polling, retrying sends, gossip propagation, event
dispatch, block announcement). Domain types Event and Block live outside this file
in the repository and are opaque to the core, so they appear as type parameters.
External collaborators (mio, rand, serde_json, std mpsc) are modelled by their
documented contracts at the exact call sites the core uses.
-/

namespace RustBlockchain

/-- Model of std::net::SocketAddr: an IP and a port. The core only moves these
around and compares them, so only equality matters. -/
structure SocketAddr where
  ip : Nat
  port : Nat
deriving DecidableEq, Repr, Inhabited

/-- Model of std::io::ErrorKind as far as the core inspects it: send only compares
the kind against ErrorKind::WouldBlock, so every other kind is collapsed into an
opaque numeric code. -/
inductive IOErrorKind where
  | wouldBlock : IOErrorKind
  | other (code : Nat) : IOErrorKind
deriving DecidableEq, Repr

/-- Model of mio::Ready restricted to the two interest bits the core registers
(readable and writable). -/
structure Ready where
  readable : Bool
  writable : Bool
deriving DecidableEq, Repr

/-- mio Ready::contains(other): bitwise (self & other) == other, i.e. every bit set
in the argument is also set in the receiver. -/
def Ready.contains (a b : Ready) : Bool :=
  (!b.readable || a.readable) && (!b.writable || a.writable)

/-- mio Ready::writable(): the readiness value send waits for after a would-block. -/
def writableReady : Ready := { readable := false, writable := true }

/-- Model of a mio event: the token it was registered under and the readiness it
reports. The context registers its single socket under Token(0). -/
structure MioEvent where
  token : Nat
  readiness : Ready
deriving DecidableEq, Repr

/-- WAIT_TIMEOUT from context.rs line 11: Some(Duration::from_millis(100)),
modelled in milliseconds. -/
def WAIT_TIMEOUT : Option Nat := some 100

/-- Outcome of one call to mio Poll::poll(events, WAIT_TIMEOUT) as the loop in
Context::poll observes it: either the OS wait primitive fails (the .unwrap()
panics), or a batch of events is delivered into the Events buffer (the batch is
empty when the 100 ms timeout elapsed with nothing to report). -/
inductive PollStep where
  | osFail : PollStep
  | deliver (evts : List MioEvent) : PollStep

/-- How Context::poll left the loop: a normal return, or a panic of the calling
thread from the .unwrap() on a failed wait. -/
inductive PollExit where
  | returned : PollExit
  | panicked : PollExit
deriving DecidableEq, Repr

/-- The per-event test inside Context::poll:
event.token() == Token(0) && event.readiness().contains(r). -/
def eventMatches (r : Ready) (e : MioEvent) : Bool :=
  e.token == 0 && e.readiness.contains r

/-- Context::poll(r) modelled over a finite oracle of wait outcomes, one PollStep
per iteration of its loop. Result none means the oracle is exhausted with the
loop still running (the real loop would keep waiting). -/
def poll (r : Ready) : List PollStep → Option PollExit
  | [] => none
  | PollStep.osFail :: _ => some PollExit.panicked
  | PollStep.deliver evts :: rest =>
    if evts.any (eventMatches r) then some PollExit.returned else poll r rest

/-- Outcome of one socket.send_to(buf, addr) attempt inside Context::send. -/
inductive SendAttempt where
  | success : SendAttempt
  | failure (k : IOErrorKind) : SendAttempt
deriving DecidableEq, Repr

/-- How Context::send left its retry loop: the transmission completed, or it was
abandoned on an error whose kind is not WouldBlock. -/
inductive SendExit where
  | completed : SendExit
  | abandoned (k : IOErrorKind) : SendExit
deriving DecidableEq, Repr

/-- The retry loop of Context::send over a finite oracle of send_to outcomes, one
per attempt. Returns the exit together with the list of readiness values passed
to poll along the way (the code calls self.poll(Ready::writable()) once per
would-block before retrying). Result none means the oracle is exhausted with the
loop still running. -/
def sendLoop : List SendAttempt → Option (SendExit × List Ready)
  | [] => none
  | SendAttempt.success :: _ => some (SendExit.completed, [])
  | SendAttempt.failure k :: rest =>
    if k = IOErrorKind.wouldBlock then
      (sendLoop rest).map (fun p => (p.1, writableReady :: p.2))
    else
      some (SendExit.abandoned k, [])

/-- Context::send as its caller sees it: the Rust return type is (), so whenever
the loop exits the caller gets a bare unit back, never an error value. buf and
dest are handed to socket.send_to on every attempt but never influence control
flow. -/
def send (buf : List Nat) (dest : SocketAddr) (attempts : List SendAttempt) : Option Unit :=
  (sendLoop attempts).map (fun _ => ())

/-- The only variant of the Message envelope this core ever constructs:
Message::Event(event). The full envelope type lives outside src/. -/
inductive Message (E : Type) where
  | event (e : E) : Message E

/-- Rust Clone on an opaque domain value: an independent copy equal to the
original, modelled as the identity on the value. -/
def cloneVal {A : Type} (a : A) : A := a

/-- Vec::swap on the index vector used by the sampler. Out-of-range positions are
never reached under the validity side conditions proved below. -/
def swapList (l : List Nat) (i j : Nat) : List Nat :=
  (l.set i (l.getD j 0)).set j (l.getD i 0)

/-- The partial Fisher-Yates pass of rand sample_inplace: at step i swap position i
with position cs i, where cs i was drawn from gen_range(i, length). -/
def fyLoop : List Nat → Nat → List Nat → List Nat
  | arr, _, [] => arr
  | arr, i, c :: cs => fyLoop (swapList arr i c) (i + 1) cs

/-- Modelled from rand: SliceRandom::choose_multiple(rng, amount) clamps amount to
the slice length and draws that many distinct indices via index::sample; all of
that function's strategies implement the same uniform without-replacement
contract, modelled here by the sample_inplace strategy (partial Fisher-Yates over
the indices 0..n, truncated to the clamped amount). cs is the stream of raw draws
j = gen_range(i, n), one per step. -/
def sampleInplace (n amount : Nat) (cs : List Nat) : List Nat :=
  (fyLoop (List.range n) 0 cs).take (min amount n)

/-- The random draws cs form one complete run of the sampler for length n and the
requested amount: one draw per retained index, each within gen_range(i, n). -/
def validChoices (n amount : Nat) (cs : List Nat) : Bool :=
  cs.length = min amount n &&
    (List.range cs.length).all (fun i => decide (i ≤ cs.getD i 0) && decide (cs.getD i 0 < n))

/-- self.peers.choose_multiple(rng, amount) as propagate uses it: the sampled index
positions read back through the peers vector. -/
def chooseMultiple (peers : List SocketAddr) (amount : Nat) (cs : List Nat) : List SocketAddr :=
  (sampleInplace peers.length amount cs).map (fun i => peers.getD i default)

/-- One call to Context::send as issued by propagate: the serialized buffer and the
destination peer. -/
structure SendCall where
  buf : List Nat
  dest : SocketAddr
deriving DecidableEq, Repr

/-- The read-only view of the context a registered handler receives (the handler
gets &self and may read the address and peer list and call back into the
context; those callbacks surface as Effect values in its result). -/
structure ContextView where
  addr : SocketAddr
  peers : List SocketAddr

/-- Observable side effects a handler may perform through the context it is
handed: sends on the UDP socket and blocks pushed onto the announcement
channel. -/
inductive Effect (B : Type) where
  | netSend (buf : List Nat) (dest : SocketAddr) : Effect B
  | chanSend (b : B) : Effect B

/-- The Service trait from server/service.rs as context.rs consumes it: two
operations, each returning io::Result<()> and performing effects through the
context it is passed. -/
structure Service (E B : Type) where
  process_event : ContextView → E → SocketAddr → Except IOErrorKind Unit × List (Effect B)
  process_request : ContextView → List Nat → Except IOErrorKind Unit × List (Effect B)

/-- The Context struct, keeping the fields the claims are about: the bound local
address, the peer vector, and the optional boxed Service. The remaining fields
(socket, poll, events buffer, channel sender) are OS and channel handles whose
behaviour is modelled by the oracle state threaded through poll, send and
announce_block. -/
structure Context (E B : Type) where
  addr : SocketAddr
  peers : List SocketAddr
  event_service : Option (Service E B)

/-- Context::new on the success path (bind and register are external I/O): stores
the address and peers and starts with no event service. -/
def Context.new (E B : Type) (addr : SocketAddr) (peers : List SocketAddr) : Context E B :=
  { addr := addr, peers := peers, event_service := none }

/-- The view of the context passed to handler callbacks. -/
def Context.view {E B : Type} (ctx : Context E B) : ContextView :=
  { addr := ctx.addr, peers := ctx.peers }

/-- Context::get_addr. -/
def get_addr {E B : Type} (ctx : Context E B) : SocketAddr := ctx.addr

/-- Context::get_peers. -/
def get_peers {E B : Type} (ctx : Context E B) : List SocketAddr := ctx.peers

/-- Context::register_event_handler(service): stores the service (replacing any
previous one) and returns Ok(()). It takes &mut self, so the model returns the
updated context alongside the io::Result. -/
def register_event_handler {E B : Type} (ctx : Context E B) (service : Service E B) :
    Context E B × Except IOErrorKind Unit :=
  ({ ctx with event_service := some service }, Except.ok ())

/-- What a dispatch entry point produced: the io::Result handed back to the
caller, how many times a handler was invoked, and the effects the handler
performed through the context. -/
structure DispatchOut (B : Type) where
  result : Except IOErrorKind Unit
  handlerCalls : Nat
  effects : List (Effect B)

/-- Context::handle_event(evt, from): if a service is registered, delegate and
propagate its error through the ? operator, else Ok(()). -/
def handle_event {E B : Type} (ctx : Context E B) (evt : E) (fromAddr : SocketAddr) :
    DispatchOut B :=
  match ctx.event_service with
  | none => { result := Except.ok (), handlerCalls := 0, effects := [] }
  | some h =>
    match h.process_event ctx.view evt fromAddr with
    | (Except.error e, effs) => { result := Except.error e, handlerCalls := 1, effects := effs }
    | (Except.ok _, effs) => { result := Except.ok (), handlerCalls := 1, effects := effs }

/-- Context::handle_request(data): if a service is registered, delegate and
propagate its error through the ? operator, else Ok(()). -/
def handle_request {E B : Type} (ctx : Context E B) (data : List Nat) : DispatchOut B :=
  match ctx.event_service with
  | none => { result := Except.ok (), handlerCalls := 0, effects := [] }
  | some h =>
    match h.process_request ctx.view data with
    | (Except.error e, effs) => { result := Except.error e, handlerCalls := 1, effects := effs }
    | (Except.ok _, effs) => { result := Except.ok (), handlerCalls := 1, effects := effs }

/-- Context::propagate(evt): serialize Message::Event(evt.clone()) with serde_json
(ser models to_vec, none meaning serialization failed, on which the .unwrap()
panics - modelled as result none), then send the one buffer to each sampled
peer. The result lists the send calls in order. -/
def propagate {E B : Type} (ser : Message E → Option (List Nat)) (cs : List Nat)
    (ctx : Context E B) (evt : E) : Option (List SendCall) :=
  match ser (Message.event (cloneVal evt)) with
  | none => none
  | some buf => some ((chooseMultiple ctx.peers 2 cs).map (fun a => SendCall.mk buf a))

/-- The announcement channel as the sender half sees it: whether the receiving end
is still alive, and the queue of blocks already sent. std mpsc Sender::send
fails exactly when the receiver has been dropped. -/
structure ChannelState (B : Type) where
  receiverAlive : Bool
  queue : List B

/-- Context::announce_block(block): tx.send(block.clone()).unwrap(). Result none
models the panic of the .unwrap() when the receiver is gone; otherwise the clone
of the block is appended to the channel queue. -/
def announce_block {B : Type} (st : ChannelState B) (b : B) : Option (ChannelState B) :=
  if st.receiverAlive then
    some { st with queue := st.queue ++ [cloneVal b] }
  else
    none

/-- One invocation of a &self operation of the context (everything except
construction and register_event_handler), with the oracle data it consumes. -/
inductive Op (E B : Type) where
  | opHandleEvent (evt : E) (fromAddr : SocketAddr) : Op E B
  | opHandleRequest (data : List Nat) : Op E B
  | opPoll (r : Ready) (steps : List PollStep) : Op E B
  | opSend (buf : List Nat) (dest : SocketAddr) (attempts : List SendAttempt) : Op E B
  | opPropagate (ser : Message E → Option (List Nat)) (cs : List Nat) (evt : E) : Op E B
  | opAnnounceBlock (st : ChannelState B) (b : B) : Op E B
  | opGetAddr : Op E B
  | opGetPeers : Op E B

/-- Run one &self operation against the context: each operation is evaluated for
its result and effects, and hands the context back as it received it (the Rust
methods take &self, so they cannot modify the context fields). -/
def runOp {E B : Type} : Op E B → Context E B → Context E B
  | Op.opHandleEvent evt fromAddr, ctx =>
    let _ := handle_event ctx evt fromAddr
    ctx
  | Op.opHandleRequest data, ctx =>
    let _ := handle_request ctx data
    ctx
  | Op.opPoll r steps, ctx =>
    let _ := poll r steps
    ctx
  | Op.opSend buf dest attempts, ctx =>
    let _ := send buf dest attempts
    ctx
  | Op.opPropagate ser cs evt, ctx =>
    let _ := propagate ser cs ctx evt
    ctx
  | Op.opAnnounceBlock st b, ctx =>
    let _ := announce_block st b
    ctx
  | Op.opGetAddr, ctx =>
    let _ := get_addr ctx
    ctx
  | Op.opGetPeers, ctx =>
    let _ := get_peers ctx
    ctx

/-- Run a sequence of &self operations left to right. -/
def runOps {E B : Type} (ops : List (Op E B)) (ctx : Context E B) : Context E B :=
  ops.foldl (fun c op => runOp op c) ctx

/-- A handler that swallows events and errors on requests, used to instantiate
witnesses at concrete inputs. -/
def demoService : Service Nat Nat :=
  { process_event := fun _ _ _ => (Except.ok (), [])
    process_request := fun _ _ => (Except.error (IOErrorKind.other 7), []) }

/-- Every &self operation hands the context back unchanged: none of the Rust
methods modelled by Op takes &mut self. -/
theorem runOp_id {E B : Type} (op : Op E B) (ctx : Context E B) : runOp op ctx = ctx := by
  cases op <;> rfl

/-- Sequences of &self operations leave the context unchanged. -/
theorem runOps_id {E B : Type} (ops : List (Op E B)) (ctx : Context E B) :
    runOps ops ctx = ctx := by
  induction ops generalizing ctx with
  | nil => rfl
  | cons op rest ih =>
    have hstep : runOps (op :: rest) ctx = runOps rest (runOp op ctx) := rfl
    rw [hstep, runOp_id]
    exact ih ctx

/-- Leading would-block failures only add writability waits: the loop outcome is
decided by the rest of the attempt oracle. -/
theorem sendLoop_wb_prepend (m : Nat) (l : List SendAttempt) :
    sendLoop (List.replicate m (SendAttempt.failure IOErrorKind.wouldBlock) ++ l) =
      (sendLoop l).map (fun p => (p.1, List.replicate m writableReady ++ p.2)) := by
  induction m with
  | zero =>
    cases hl : sendLoop l with
    | none => simp [hl]
    | some p => simp [hl]
  | succ k ih =>
    rw [List.replicate_succ, List.cons_append, sendLoop, if_pos rfl, ih]
    cases hl : sendLoop l with
    | none => simp
    | some p => simp [List.replicate_succ]

/-- C2: whenever the send loop returns, the last attempt either succeeded or
failed with a kind other than would-block, every earlier attempt was a
would-block failure and each of them triggered one wait for writability; and on
an oracle of would-block failures alone the loop never returns, however long the
oracle. -/
theorem send_retries_until_non_would_block (attempts : List SendAttempt) (e : SendExit)
    (polls : List Ready) (m : Nat) (h : sendLoop attempts = some (e, polls)) :
    (∃ i last, attempts[i]? = some last ∧
      (∀ j, j < i → attempts[j]? = some (SendAttempt.failure IOErrorKind.wouldBlock)) ∧
      polls = List.replicate i writableReady ∧
      ((last = SendAttempt.success ∧ e = SendExit.completed) ∨
        (∃ k, k ≠ IOErrorKind.wouldBlock ∧ last = SendAttempt.failure k ∧
          e = SendExit.abandoned k))) ∧
    sendLoop (List.replicate m (SendAttempt.failure IOErrorKind.wouldBlock)) = none := by
  constructor
  · induction attempts generalizing e polls with
    | nil => simp [sendLoop] at h
    | cons a rest ih =>
      cases a with
      | success =>
        rw [sendLoop] at h
        simp only [Option.some.injEq, Prod.mk.injEq] at h
        refine ⟨0, SendAttempt.success, by simp, fun j hj => absurd hj (Nat.not_lt_zero j), ?_, ?_⟩
        · rw [← h.2]
          rfl
        · exact Or.inl ⟨rfl, h.1.symm⟩
      | failure k =>
        by_cases hk : k = IOErrorKind.wouldBlock
        · subst hk
          rw [sendLoop, if_pos rfl] at h
          rcases Option.map_eq_some'.mp h with ⟨p, hrest, hmk⟩
          rcases p with ⟨e1, polls1⟩
          simp only [Prod.mk.injEq] at hmk
          rcases ih e1 polls1 hrest with ⟨i, last, h1, h2, h3, h4⟩
          refine ⟨i + 1, last, by simpa using h1, ?_, ?_, ?_⟩
          · intro j hj
            cases j with
            | zero => simp
            | succ j1 => simpa using h2 j1 (by omega)
          · rw [← hmk.2, h3, List.replicate_succ]
          · rw [← hmk.1]
            exact h4
        · rw [sendLoop, if_neg hk] at h
          simp only [Option.some.injEq, Prod.mk.injEq] at h
          refine ⟨0, SendAttempt.failure k, by simp,
            fun j hj => absurd hj (Nat.not_lt_zero j), ?_, ?_⟩
          · rw [← h.2]
            rfl
          · exact Or.inr ⟨k, hk, rfl, h.1.symm⟩
  · induction m with
    | zero => rfl
    | succ k2 ih2 =>
      rw [List.replicate_succ, sendLoop, if_pos rfl, ih2]
      rfl

/-- Witness for C2 at a concrete oracle: one would-block then a success. -/
theorem send_retries_until_non_would_block_witness :
    (∃ i last,
      [SendAttempt.failure IOErrorKind.wouldBlock, SendAttempt.success][i]? = some last ∧
      (∀ j, j < i →
        [SendAttempt.failure IOErrorKind.wouldBlock, SendAttempt.success][j]? =
          some (SendAttempt.failure IOErrorKind.wouldBlock)) ∧
      [writableReady] = List.replicate i writableReady ∧
      ((last = SendAttempt.success ∧ SendExit.completed = SendExit.completed) ∨
        (∃ k, k ≠ IOErrorKind.wouldBlock ∧ last = SendAttempt.failure k ∧
          SendExit.completed = SendExit.abandoned k))) ∧
    sendLoop (List.replicate 3 (SendAttempt.failure IOErrorKind.wouldBlock)) = none :=
  send_retries_until_non_would_block
    [SendAttempt.failure IOErrorKind.wouldBlock, SendAttempt.success]
    SendExit.completed [writableReady] 3 (by decide)

/-- C3: every termination of the retry loop hands the caller a bare unit (the
Rust return type is (), so no error is ever surfaced), and in particular after
any number of would-block failures a failure of any other kind makes send
abandon the transmission and return normally. -/
theorem send_surfaces_no_error (buf : List Nat) (dest : SocketAddr)
    (attempts : List SendAttempt) (p : SendExit × List Ready)
    (hterm : sendLoop attempts = some p) (k : IOErrorKind)
    (hk : k ≠ IOErrorKind.wouldBlock) (m : Nat) :
    send buf dest attempts = some () ∧
    sendLoop (List.replicate m (SendAttempt.failure IOErrorKind.wouldBlock) ++
        [SendAttempt.failure k]) =
      some (SendExit.abandoned k, List.replicate m writableReady) ∧
    send buf dest (List.replicate m (SendAttempt.failure IOErrorKind.wouldBlock) ++
        [SendAttempt.failure k]) = some () := by
  have h2 : sendLoop (List.replicate m (SendAttempt.failure IOErrorKind.wouldBlock) ++
      [SendAttempt.failure k]) =
      some (SendExit.abandoned k, List.replicate m writableReady) := by
    rw [sendLoop_wb_prepend, sendLoop, if_neg hk]
    simp
  refine ⟨?_, h2, ?_⟩
  · rw [send, hterm]
    rfl
  · rw [send, h2]
    rfl

/-- Witness for C3: two would-blocks then a connection-refused style error; send
returns unit. -/
theorem send_surfaces_no_error_witness :
    send [9] ⟨0, 9001⟩ [SendAttempt.success] = some () ∧
    sendLoop (List.replicate 2 (SendAttempt.failure IOErrorKind.wouldBlock) ++
        [SendAttempt.failure (IOErrorKind.other 3)]) =
      some (SendExit.abandoned (IOErrorKind.other 3), List.replicate 2 writableReady) ∧
    send [9] ⟨0, 9001⟩ (List.replicate 2 (SendAttempt.failure IOErrorKind.wouldBlock) ++
        [SendAttempt.failure (IOErrorKind.other 3)]) = some () :=
  send_surfaces_no_error [9] ⟨0, 9001⟩ [SendAttempt.success] (SendExit.completed, [])
    (by decide) (IOErrorKind.other 3) (by decide) 2

/-- C4: poll returns only once a delivered batch contains an event for Token(0)
whose readiness contains the requested kind, with every earlier iteration a
non-matching delivery; an oracle of bare 100 ms timeouts never makes it return;
an OS-level wait failure panics the calling thread; and the wait timeout
constant is 100 ms. -/
theorem poll_returns_only_on_matching_readiness (r : Ready) (steps steps2 : List PollStep)
    (m : Nat) (h : poll r steps = some PollExit.returned) :
    (∃ (i : Nat) (evts : List MioEvent), steps[i]? = some (PollStep.deliver evts) ∧
      evts.any (eventMatches r) = true ∧
      ∀ j, j < i → ∃ evts2, steps[j]? = some (PollStep.deliver evts2) ∧
        evts2.any (eventMatches r) = false) ∧
    poll r (List.replicate m (PollStep.deliver [])) = none ∧
    poll r (PollStep.osFail :: steps2) = some PollExit.panicked ∧
    WAIT_TIMEOUT = some 100 := by
  refine ⟨?_, ?_, rfl, rfl⟩
  · induction steps with
    | nil => exact absurd h (by rw [poll]; simp)
    | cons s rest ih =>
      cases s with
      | osFail =>
        rw [poll] at h
        exact absurd h (by simp)
      | deliver evts =>
        rw [poll] at h
        by_cases hm : evts.any (eventMatches r) = true
        · exact ⟨0, evts, by simp, hm, fun j hj => absurd hj (Nat.not_lt_zero j)⟩
        · rw [if_neg hm] at h
          rcases ih h with ⟨i, evts1, h1, h2, h3⟩
          refine ⟨i + 1, evts1, by simpa using h1, h2, ?_⟩
          intro j hj
          cases j with
          | zero => exact ⟨evts, by simp, by simpa using hm⟩
          | succ j1 => simpa using h3 j1 (by omega)
  · induction m with
    | zero => rfl
    | succ k ih =>
      rw [List.replicate_succ, poll]
      simpa using ih

/-- Witness for C4: a timeout, a read-only notification, then a writable
notification for Token(0) while waiting for writability. -/
theorem poll_returns_only_on_matching_readiness_witness :
    (∃ (i : Nat) (evts : List MioEvent),
      [PollStep.deliver [], PollStep.deliver [MioEvent.mk 0 (Ready.mk true false)],
        PollStep.deliver [MioEvent.mk 0 (Ready.mk false true)]][i]? =
          some (PollStep.deliver evts) ∧
      evts.any (eventMatches writableReady) = true ∧
      ∀ j, j < i → ∃ evts2,
        [PollStep.deliver [], PollStep.deliver [MioEvent.mk 0 (Ready.mk true false)],
          PollStep.deliver [MioEvent.mk 0 (Ready.mk false true)]][j]? =
            some (PollStep.deliver evts2) ∧
        evts2.any (eventMatches writableReady) = false) ∧
    poll writableReady (List.replicate 4 (PollStep.deliver [])) = none ∧
    poll writableReady (PollStep.osFail :: [PollStep.deliver []]) = some PollExit.panicked ∧
    WAIT_TIMEOUT = some 100 :=
  poll_returns_only_on_matching_readiness writableReady
    [PollStep.deliver [], PollStep.deliver [MioEvent.mk 0 (Ready.mk true false)],
      PollStep.deliver [MioEvent.mk 0 (Ready.mk false true)]]
    [PollStep.deliver []] 4 (by rfl)

/-- C5: with no handler registered, handle_event and handle_request return Ok
without invoking any handler, with no network send and no touch of the block
channel. -/
theorem handle_no_service_noop {E B : Type} (ctx : Context E B) (evt : E)
    (fromAddr : SocketAddr) (data : List Nat) (h : ctx.event_service = none) :
    handle_event ctx evt fromAddr =
      { result := Except.ok (), handlerCalls := 0, effects := [] } ∧
    handle_request ctx data =
      { result := Except.ok (), handlerCalls := 0, effects := [] } := by
  constructor
  · rw [handle_event, h]
  · rw [handle_request, h]

/-- Witness for C5 at a concrete freshly constructed context. -/
theorem handle_no_service_noop_witness :
    handle_event (Context.new Nat Nat ⟨0, 9000⟩ [⟨0, 9001⟩]) 5 ⟨0, 9001⟩ =
      { result := Except.ok (), handlerCalls := 0, effects := [] } ∧
    handle_request (Context.new Nat Nat ⟨0, 9000⟩ [⟨0, 9001⟩]) [1, 2, 3] =
      { result := Except.ok (), handlerCalls := 0, effects := [] } :=
  handle_no_service_noop (Context.new Nat Nat ⟨0, 9000⟩ [⟨0, 9001⟩]) 5 ⟨0, 9001⟩ [1, 2, 3] rfl

/-- C6: with a handler registered, handle_event and handle_request return exactly
the io::Result produced by the handler operation (errors propagate unchanged
through the ? operator, success stays success), invoking the handler exactly
once. -/
theorem handle_delegates_to_service {E B : Type} (ctx : Context E B) (h : Service E B)
    (evt : E) (fromAddr : SocketAddr) (data : List Nat) (hs : ctx.event_service = some h) :
    (handle_event ctx evt fromAddr).result = (h.process_event ctx.view evt fromAddr).1 ∧
    (handle_request ctx data).result = (h.process_request ctx.view data).1 ∧
    (handle_event ctx evt fromAddr).handlerCalls = 1 ∧
    (handle_request ctx data).handlerCalls = 1 := by
  rcases hpe : h.process_event ctx.view evt fromAddr with ⟨r, effs⟩
  rcases hpr : h.process_request ctx.view data with ⟨r2, effs2⟩
  cases r <;> cases r2 <;> simp [handle_event, handle_request, hs, hpe, hpr]

/-- Witness for C6: a handler whose process_request returns a specific error; the
same error comes back unchanged, and process_event Ok stays Ok. -/
theorem handle_delegates_to_service_witness :
    (handle_event ((register_event_handler (Context.new Nat Nat ⟨0, 9000⟩ []) demoService).1)
        5 ⟨0, 9001⟩).result =
      (demoService.process_event
        ((register_event_handler (Context.new Nat Nat ⟨0, 9000⟩ []) demoService).1).view
        5 ⟨0, 9001⟩).1 ∧
    (handle_request ((register_event_handler (Context.new Nat Nat ⟨0, 9000⟩ []) demoService).1)
        [1]).result =
      (demoService.process_request
        ((register_event_handler (Context.new Nat Nat ⟨0, 9000⟩ []) demoService).1).view [1]).1 ∧
    (handle_event ((register_event_handler (Context.new Nat Nat ⟨0, 9000⟩ []) demoService).1)
        5 ⟨0, 9001⟩).handlerCalls = 1 ∧
    (handle_request ((register_event_handler (Context.new Nat Nat ⟨0, 9000⟩ []) demoService).1)
        [1]).handlerCalls = 1 :=
  handle_delegates_to_service
    ((register_event_handler (Context.new Nat Nat ⟨0, 9000⟩ []) demoService).1)
    demoService 5 ⟨0, 9001⟩ [1] rfl

/-- C7: announce_block panics exactly when the receiving end of the channel has
been dropped; otherwise it returns normally having appended one independent copy
of exactly the given block to the channel queue. -/
theorem announce_block_spec {B : Type} (st : ChannelState B) (b : B)
    (halive : st.receiverAlive = true) :
    (∀ st2 : ChannelState B, announce_block st2 b = none ↔ st2.receiverAlive = false) ∧
    announce_block st b = some { receiverAlive := st.receiverAlive, queue := st.queue ++ [b] } ∧
    cloneVal b = b := by
  refine ⟨fun st2 => ?_, ?_, rfl⟩
  · rw [announce_block]
    cases hr : st2.receiverAlive <;> simp
  · rw [announce_block, halive]
    simp [cloneVal]

/-- Witness for C7 on a live channel holding one prior block. -/
theorem announce_block_spec_witness :
    (∀ st2 : ChannelState Nat, announce_block st2 42 = none ↔ st2.receiverAlive = false) ∧
    announce_block ⟨true, [7]⟩ 42 = some ⟨true, [7, 42]⟩ ∧
    cloneVal 42 = 42 :=
  announce_block_spec ⟨true, [7]⟩ 42 rfl

/-- C8: the handler starts absent, register_event_handler always returns Ok and
makes the handler present (silently replacing any previous one), and no &self
operation ever unsets a present handler. -/
theorem register_handler_monotone {E B : Type} (a : SocketAddr) (ps : List SocketAddr)
    (ctx : Context E B) (s s1 s2 : Service E B) (op : Op E B) (h : Service E B)
    (hpres : ctx.event_service = some h) :
    (Context.new E B a ps).event_service = none ∧
    (register_event_handler ctx s).2 = Except.ok () ∧
    (register_event_handler ctx s).1.event_service = some s ∧
    (register_event_handler (register_event_handler ctx s1).1 s2).1.event_service = some s2 ∧
    (runOp op ctx).event_service = some h := by
  refine ⟨rfl, rfl, rfl, rfl, ?_⟩
  rw [runOp_id]
  exact hpres

/-- Witness for C8 on a concrete context carrying a handler. -/
theorem register_handler_monotone_witness :
    (Context.new Nat Nat ⟨0, 9000⟩ []).event_service = none ∧
    (register_event_handler (Context.mk ⟨0, 9000⟩ [] (some demoService)) demoService).2 =
      Except.ok () ∧
    (register_event_handler (Context.mk ⟨0, 9000⟩ [] (some demoService))
      demoService).1.event_service = some demoService ∧
    (register_event_handler
      (register_event_handler (Context.mk ⟨0, 9000⟩ [] (some demoService)) demoService).1
      demoService).1.event_service = some demoService ∧
    (runOp (Op.opGetAddr) (Context.mk ⟨0, 9000⟩ [] (some demoService))).event_service =
      some demoService :=
  register_handler_monotone ⟨0, 9000⟩ [] (Context.mk ⟨0, 9000⟩ [] (some demoService))
    demoService demoService demoService Op.opGetAddr demoService rfl

/-- C9: every &self operation (dispatch, poll, send, propagate, announce_block and
the accessors) leaves the local address, the peer list and the registered handler
untouched, so after any sequence of such operations get_addr and get_peers still
return the construction-time values. -/
theorem context_frame {E B : Type} (op : Op E B) (ctx : Context E B)
    (ops : List (Op E B)) (a : SocketAddr) (ps : List SocketAddr) :
    (runOp op ctx).addr = ctx.addr ∧
    (runOp op ctx).peers = ctx.peers ∧
    (runOp op ctx).event_service = ctx.event_service ∧
    get_addr (runOps ops (Context.new E B a ps)) = a ∧
    get_peers (runOps ops (Context.new E B a ps)) = ps := by
  rw [runOp_id, runOps_id]
  exact ⟨rfl, rfl, rfl, rfl, rfl⟩

/-- Witness for C9 with a mixed operation sequence over a concrete context. -/
theorem context_frame_witness :
    (runOp (Op.opHandleRequest [1]) (Context.new Nat Nat ⟨0, 9000⟩ [⟨0, 9001⟩])).addr =
      (Context.new Nat Nat ⟨0, 9000⟩ [⟨0, 9001⟩]).addr ∧
    (runOp (Op.opHandleRequest [1]) (Context.new Nat Nat ⟨0, 9000⟩ [⟨0, 9001⟩])).peers =
      (Context.new Nat Nat ⟨0, 9000⟩ [⟨0, 9001⟩]).peers ∧
    (runOp (Op.opHandleRequest [1]) (Context.new Nat Nat ⟨0, 9000⟩ [⟨0, 9001⟩])).event_service =
      (Context.new Nat Nat ⟨0, 9000⟩ [⟨0, 9001⟩]).event_service ∧
    get_addr (runOps [Op.opPoll writableReady [], Op.opSend [1] ⟨0, 9001⟩ [SendAttempt.success]]
      (Context.new Nat Nat ⟨0, 9000⟩ [⟨0, 9001⟩])) = ⟨0, 9000⟩ ∧
    get_peers (runOps [Op.opPoll writableReady [], Op.opSend [1] ⟨0, 9001⟩ [SendAttempt.success]]
      (Context.new Nat Nat ⟨0, 9000⟩ [⟨0, 9001⟩])) = [⟨0, 9001⟩] :=
  context_frame (Op.opHandleRequest [1]) (Context.new Nat Nat ⟨0, 9000⟩ [⟨0, 9001⟩])
    [Op.opPoll writableReady [], Op.opSend [1] ⟨0, 9001⟩ [SendAttempt.success]]
    ⟨0, 9000⟩ [⟨0, 9001⟩]

/-- C10: propagate panics (result none) exactly when serializing the
Message::Event envelope fails, and whenever it returns normally the
serialization succeeded and every send call it issued carries that one
serialized buffer. -/
theorem propagate_panics_on_serialize_failure {E B : Type}
    (ser : Message E → Option (List Nat)) (cs : List Nat) (ctx : Context E B) (evt : E)
    (hfail : ser (Message.event evt) = none)
    (ser2 : Message E → Option (List Nat)) (cs2 : List Nat) (ctx2 : Context E B) (evt2 : E)
    (calls : List SendCall) (hret : propagate ser2 cs2 ctx2 evt2 = some calls) :
    propagate ser cs ctx evt = none ∧
    ∃ buf, ser2 (Message.event evt2) = some buf ∧ ∀ c ∈ calls, c.buf = buf := by
  constructor
  · rw [propagate]
    simp [cloneVal, hfail]
  · rw [propagate] at hret
    simp only [cloneVal] at hret
    cases hser2 : ser2 (Message.event evt2) with
    | none => rw [hser2] at hret; exact absurd hret (by simp)
    | some buf =>
      rw [hser2] at hret
      refine ⟨buf, rfl, ?_⟩
      intro c hc
      have hcalls : calls = (chooseMultiple ctx2.peers 2 cs2).map (fun a => SendCall.mk buf a) := by
        exact (Option.some.injEq _ _).mp hret.symm
      rw [hcalls] at hc
      rcases List.mem_map.mp hc with ⟨a, _, hca⟩
      rw [← hca]

/-- Witness for C10: a serializer that always fails versus one that always
produces the bytes [1, 2]. -/
theorem propagate_panics_on_serialize_failure_witness :
    propagate (fun _ => (none : Option (List Nat))) [0, 1]
      (Context.new Nat Nat ⟨0, 9000⟩ [⟨0, 9001⟩, ⟨0, 9002⟩]) 5 = none ∧
    ∃ buf, (fun _ => some [1, 2] : Message Nat → Option (List Nat)) (Message.event 5) = some buf ∧
      ∀ c ∈ [SendCall.mk [1, 2] ⟨0, 9001⟩, SendCall.mk [1, 2] ⟨0, 9002⟩], c.buf = buf :=
  propagate_panics_on_serialize_failure (fun _ => none) [0, 1]
    (Context.new Nat Nat ⟨0, 9000⟩ [⟨0, 9001⟩, ⟨0, 9002⟩]) 5 rfl
    (fun _ => some [1, 2]) [0, 1] (Context.new Nat Nat ⟨0, 9000⟩ [⟨0, 9001⟩, ⟨0, 9002⟩]) 5
    [SendCall.mk [1, 2] ⟨0, 9001⟩, SendCall.mk [1, 2] ⟨0, 9002⟩] rfl

/-- Taking two elements of a list of length at least 2 yields its first two
entries. -/
theorem take_two (L : List Nat) (h : 2 ≤ L.length) : L.take 2 = [L.getD 0 0, L.getD 1 0] := by
  match L with
  | [] => simp at h
  | [a] => simp at h
  | a :: b :: t => simp [List.getD]

/-- Closed form of the two-draw sampler on n indices: the first retained index is
the first raw draw c0, the second is the second raw draw c1 unless the two draws
collide, in which case it is the index 0 displaced by the first swap. -/
theorem sampleInplace_two (n c0 c1 : Nat) (hn : 2 ≤ n) (h0 : c0 < n) (h1l : 1 ≤ c1)
    (h1 : c1 < n) :
    sampleInplace n 2 [c0, c1] = [c0, if c1 = c0 then 0 else c1] := by
  have hmin : min 2 n = 2 := Nat.min_eq_left hn
  have h0n : (0 : Nat) < n := by omega
  have h1n : (1 : Nat) < n := by omega
  have hnec1 : ¬ (c1 = 0) := by omega
  have hswap0 : swapList (List.range n) 0 c0 = ((List.range n).set 0 c0).set c0 0 := by
    have hr0 : (List.range n).getD 0 0 = 0 := by
      simp [List.getD_eq_getElem?_getD, List.getElem?_range, h0n]
    have hrc0 : (List.range n).getD c0 0 = c0 := by
      simp [List.getD_eq_getElem?_getD, List.getElem?_range, h0]
    rw [swapList, hr0, hrc0]
  have hstep : fyLoop (List.range n) 0 [c0, c1] =
      swapList (((List.range n).set 0 c0).set c0 0) 1 c1 := by
    rw [fyLoop, hswap0, fyLoop, fyLoop]
  rw [sampleInplace, hstep, hmin, swapList]
  rw [take_two _ (by simp; omega)]
  have hfst : ((((((List.range n).set 0 c0).set c0 0).set 1
      ((((List.range n).set 0 c0).set c0 0).getD c1 0)).set c1
      ((((List.range n).set 0 c0).set c0 0).getD 1 0))).getD 0 0 = c0 := by
    have hne1 : ¬ ((1 : Nat) = 0) := by omega
    simp [List.getD_eq_getElem?_getD, List.getElem?_set, hne1, hnec1]
    by_cases hc : c0 = 0
    · simp [hc, h0n]
    · simp [hc, h0n]
  have hsnd : ((((((List.range n).set 0 c0).set c0 0).set 1
      ((((List.range n).set 0 c0).set c0 0).getD c1 0)).set c1
      ((((List.range n).set 0 c0).set c0 0).getD 1 0))).getD 1 0 =
      if c1 = c0 then 0 else c1 := by
    by_cases hc11 : c1 = 1
    · subst hc11
      simp [List.getD_eq_getElem?_getD, List.getElem?_set, List.length_set, List.length_range,
        h1n]
      by_cases hc0 : c0 = 1
      · simp [hc0, h1n]
      · have h1c : ¬ ((1 : Nat) = c0) := fun hh => hc0 hh.symm
        simp [hc0, h1c, List.getElem?_range, h1n]
    · simp [List.getD_eq_getElem?_getD, List.getElem?_set, List.length_set, List.length_range,
        hc11, h1n]
      by_cases hcc : c0 = c1
      · simp [hcc, h1]
      · have h0c1 : ¬ ((0 : Nat) = c1) := fun hh => hnec1 hh.symm
        have hc1c : ¬ (c1 = c0) := fun hh => hcc hh.symm
        simp [hcc, h0c1, hc1c, List.getElem?_range, h1]
  rw [hfst, hsnd]

/-- Unfolding of the validity predicate on raw draw streams. -/
theorem validChoices_iff (n amount : Nat) (cs : List Nat) :
    validChoices n amount cs = true ↔
      cs.length = min amount n ∧ ∀ i, i < cs.length → i ≤ cs.getD i 0 ∧ cs.getD i 0 < n := by
  rw [validChoices]
  simp [List.all_eq_true, List.mem_range]

/-- With fewer than two indices available the sampler returns every index, in
order. -/
theorem sampleInplace_small (n : Nat) (cs : List Nat) (hn : n < 2)
    (hv : validChoices n 2 cs = true) : sampleInplace n 2 cs = List.range n := by
  rcases (validChoices_iff n 2 cs).mp hv with ⟨hlen, hbd⟩
  interval_cases n
  · have hnil : cs = [] := List.length_eq_zero.mp (by simpa using hlen)
    subst hnil
    rfl
  · have hlen1 : cs.length = 1 := by simpa using hlen
    rcases List.length_eq_one.mp hlen1 with ⟨c, hc⟩
    subst hc
    have hb := hbd 0 (by simp)
    have hc0 : c = 0 := by
      have : List.getD [c] 0 0 = c := rfl
      omega
    subst hc0
    rfl

/-- A valid draw stream for two draws out of n at least 2 is a pair of in-range
draws, and the sampler maps it to the closed form of sampleInplace_two. -/
theorem sampleInplace_valid_two (n : Nat) (cs : List Nat) (hn : 2 ≤ n)
    (hv : validChoices n 2 cs = true) :
    ∃ c0 c1, cs = [c0, c1] ∧ c0 < n ∧ 1 ≤ c1 ∧ c1 < n ∧
      sampleInplace n 2 cs = [c0, if c1 = c0 then 0 else c1] := by
  rcases (validChoices_iff n 2 cs).mp hv with ⟨hlen, hbd⟩
  have hlen2 : cs.length = 2 := by
    rw [hlen]
    omega
  rcases List.length_eq_two.mp hlen2 with ⟨c0, c1, hc⟩
  subst hc
  have h0 := hbd 0 (by simp)
  have h1 := hbd 1 (by simp)
  have hg0 : List.getD [c0, c1] 0 0 = c0 := rfl
  have hg1 : List.getD [c0, c1] 1 0 = c1 := rfl
  rw [hg0] at h0
  rw [hg1] at h1
  exact ⟨c0, c1, rfl, h0.2, h1.1, h1.2, sampleInplace_two n c0 c1 hn h0.2 h1.1 h1.2⟩

/-- Uniform sampling without replacement: for n at least 2, every ordered pair of
distinct indices below n is produced by exactly one valid draw stream, so a
uniform raw generator induces the uniform distribution over selections. -/
theorem sampleInplace_two_unique (n p q : Nat) (hn : 2 ≤ n) (hp : p < n) (hq : q < n)
    (hpq : p ≠ q) :
    ∃! cs, validChoices n 2 cs = true ∧ sampleInplace n 2 cs = [p, q] := by
  have hval : validChoices n 2 [p, if q = 0 then p else q] = true := by
    rw [validChoices_iff]
    constructor
    · simp
      omega
    · intro i hi
      have hi2 : i < 2 := by simpa using hi
      interval_cases i
      · have hg : List.getD [p, if q = 0 then p else q] 0 0 = p := rfl
        rw [hg]
        omega
      · have hg : List.getD [p, if q = 0 then p else q] 1 0 = if q = 0 then p else q := rfl
        rw [hg]
        by_cases hq0 : q = 0
        · rw [if_pos hq0]
          omega
        · rw [if_neg hq0]
          omega
  have hres : sampleInplace n 2 [p, if q = 0 then p else q] = [p, q] := by
    by_cases hq0 : q = 0
    · rw [if_pos hq0]
      rw [sampleInplace_two n p p hn hp (by omega) hp]
      rw [if_pos rfl, hq0]
    · rw [if_neg hq0]
      rw [sampleInplace_two n p q hn hp (by omega) hq]
      rw [if_neg (fun hh => hpq hh.symm)]
  refine ⟨[p, if q = 0 then p else q], ⟨hval, hres⟩, ?_⟩
  rintro ds ⟨hdv, hdres⟩
  rcases sampleInplace_valid_two n ds hn hdv with ⟨d0, d1, hds, hd0, hd1l, hd1, hsamp⟩
  subst hds
  rw [hsamp] at hdres
  have hdres2 : d0 = p ∧ (if d1 = d0 then 0 else d1) = q := by simpa using hdres
  rcases hdres2 with ⟨he0, he1⟩
  subst he0
  by_cases hdd : d1 = d0
  · rw [if_pos hdd] at he1
    rw [hdd, if_pos he1.symm]
  · rw [if_neg hdd] at he1
    subst he1
    rw [if_neg (by omega)]

/-- Reading two distinct in-range positions of a duplicate-free peer list yields
distinct addresses. -/
theorem getD_ne_of_nodup (l : List SocketAddr) (hnd : l.Nodup) (i j : Nat)
    (hi : i < l.length) (hj : j < l.length) (hij : i ≠ j) :
    l.getD i default ≠ l.getD j default := by
  have h1 : l.getD i default = l.get ⟨i, hi⟩ := by
    rw [List.getD_eq_getElem?_getD, List.getElem?_eq_getElem hi]
    rfl
  have h2 : l.getD j default = l.get ⟨j, hj⟩ := by
    rw [List.getD_eq_getElem?_getD, List.getElem?_eq_getElem hj]
    rfl
  rw [h1, h2]
  intro he
  exact hij ((hnd.getElem_inj_iff).mp he)

/-- An in-range read of the peer list is a member of it. -/
theorem getD_mem_of_lt (l : List SocketAddr) (i : Nat) (hi : i < l.length) :
    l.getD i default ∈ l := by
  have h1 : l.getD i default = l.get ⟨i, hi⟩ := by
    rw [List.getD_eq_getElem?_getD, List.getElem?_eq_getElem hi]
    rfl
  rw [h1]
  exact List.getElem_mem hi

/-- The peer selection of propagate: exactly two distinct known peers when at
least two exist, and the whole peer list when fewer exist. -/
theorem chooseMultiple_spec (peers : List SocketAddr) (cs : List Nat)
    (hcs : validChoices peers.length 2 cs = true) (hnd : peers.Nodup) :
    (2 ≤ peers.length →
      (chooseMultiple peers 2 cs).length = 2 ∧ (chooseMultiple peers 2 cs).Nodup) ∧
    (peers.length < 2 → chooseMultiple peers 2 cs = peers) ∧
    (∀ a ∈ chooseMultiple peers 2 cs, a ∈ peers) := by
  by_cases hn : 2 ≤ peers.length
  · rcases sampleInplace_valid_two peers.length cs hn hcs with
      ⟨c0, c1, hcseq, hc0, hc1l, hc1, hsamp⟩
    have hsel : chooseMultiple peers 2 cs =
        [peers.getD c0 default, peers.getD (if c1 = c0 then 0 else c1) default] := by
      rw [chooseMultiple, hsamp]
      rfl
    have hxlt : (if c1 = c0 then 0 else c1) < peers.length := by
      by_cases hd : c1 = c0
      · rw [if_pos hd]
        omega
      · rw [if_neg hd]
        exact hc1
    have hxne : c0 ≠ (if c1 = c0 then 0 else c1) := by
      by_cases hd : c1 = c0
      · rw [if_pos hd]
        omega
      · rw [if_neg hd]
        exact fun hh => hd hh.symm
    refine ⟨fun _ => ⟨by rw [hsel]; rfl, ?_⟩, fun hlt => absurd hlt (by omega), ?_⟩
    · rw [hsel]
      refine List.nodup_cons.mpr ⟨?_, List.nodup_singleton _⟩
      intro hmem
      exact getD_ne_of_nodup peers hnd c0 (if c1 = c0 then 0 else c1) hc0 hxlt hxne
        (List.mem_singleton.mp hmem)
    · intro a ha
      rw [hsel] at ha
      rcases List.mem_cons.mp ha with he | ha2
      · rw [he]
        exact getD_mem_of_lt peers c0 hc0
      · rcases List.mem_cons.mp ha2 with he | hn3
        · rw [he]
          exact getD_mem_of_lt peers (if c1 = c0 then 0 else c1) hxlt
        · exact absurd hn3 (List.not_mem_nil a)
  · have hlt : peers.length < 2 := by omega
    have hpeq : chooseMultiple peers 2 cs = peers := by
      rw [chooseMultiple, sampleInplace_small peers.length cs hlt hcs]
      interval_cases hpl : peers.length
      · rw [List.length_eq_zero.mp hpl]
        rfl
      · rcases List.length_eq_one.mp hpl with ⟨a, ha⟩
        rw [ha]
        rfl
    refine ⟨fun hge => absurd hge (by omega), fun _ => hpeq, ?_⟩
    intro a ha
    rw [hpeq] at ha
    exact ha

/-- C1: propagate serializes the event once and issues one send per selected peer
with that same buffer; with at least two known peers it selects exactly two
distinct peer addresses (each a known peer), with fewer it selects every known
peer without error, and each ordered pair of distinct positions arises from
exactly one valid draw stream (uniform sampling without replacement). -/
theorem propagate_gossip_spec {E B : Type} (ctx : Context E B) (evt : E)
    (ser : Message E → Option (List Nat)) (buf : List Nat) (cs : List Nat)
    (hser : ser (Message.event evt) = some buf)
    (hcs : validChoices ctx.peers.length 2 cs = true)
    (hnd : ctx.peers.Nodup) :
    propagate ser cs ctx evt =
      some ((chooseMultiple ctx.peers 2 cs).map (fun a => SendCall.mk buf a)) ∧
    (2 ≤ ctx.peers.length →
      (chooseMultiple ctx.peers 2 cs).length = 2 ∧ (chooseMultiple ctx.peers 2 cs).Nodup) ∧
    (ctx.peers.length < 2 → chooseMultiple ctx.peers 2 cs = ctx.peers) ∧
    (∀ a ∈ chooseMultiple ctx.peers 2 cs, a ∈ ctx.peers) ∧
    (2 ≤ ctx.peers.length → ∀ p q, p < ctx.peers.length → q < ctx.peers.length → p ≠ q →
      ∃! ds, validChoices ctx.peers.length 2 ds = true ∧
        sampleInplace ctx.peers.length 2 ds = [p, q]) := by
  rcases chooseMultiple_spec ctx.peers cs hcs hnd with ⟨hbig, hsmall, hmem⟩
  refine ⟨?_, hbig, hsmall, hmem, ?_⟩
  · rw [propagate]
    simp [cloneVal, hser]
  · intro hge p q hp hq hpq
    exact sampleInplace_two_unique ctx.peers.length p q hge hp hq hpq

/-- Witness for C1 on three peers with the draw stream [1, 2]. -/
theorem propagate_gossip_spec_witness :
    propagate (fun _ => some [5]) [1, 2]
        (Context.new Nat Nat ⟨0, 9000⟩ [⟨0, 9001⟩, ⟨0, 9002⟩, ⟨0, 9003⟩]) 8 =
      some ((chooseMultiple [⟨0, 9001⟩, ⟨0, 9002⟩, ⟨0, 9003⟩] 2 [1, 2]).map
        (fun a => SendCall.mk [5] a)) ∧
    (2 ≤ ([⟨0, 9001⟩, ⟨0, 9002⟩, ⟨0, 9003⟩] : List SocketAddr).length →
      (chooseMultiple [⟨0, 9001⟩, ⟨0, 9002⟩, ⟨0, 9003⟩] 2 [1, 2]).length = 2 ∧
      (chooseMultiple [⟨0, 9001⟩, ⟨0, 9002⟩, ⟨0, 9003⟩] 2 [1, 2]).Nodup) ∧
    (([⟨0, 9001⟩, ⟨0, 9002⟩, ⟨0, 9003⟩] : List SocketAddr).length < 2 →
      chooseMultiple [⟨0, 9001⟩, ⟨0, 9002⟩, ⟨0, 9003⟩] 2 [1, 2] =
        [⟨0, 9001⟩, ⟨0, 9002⟩, ⟨0, 9003⟩]) ∧
    (∀ a ∈ chooseMultiple [⟨0, 9001⟩, ⟨0, 9002⟩, ⟨0, 9003⟩] 2 [1, 2],
      a ∈ ([⟨0, 9001⟩, ⟨0, 9002⟩, ⟨0, 9003⟩] : List SocketAddr)) ∧
    (2 ≤ ([⟨0, 9001⟩, ⟨0, 9002⟩, ⟨0, 9003⟩] : List SocketAddr).length →
      ∀ p q, p < ([⟨0, 9001⟩, ⟨0, 9002⟩, ⟨0, 9003⟩] : List SocketAddr).length →
        q < ([⟨0, 9001⟩, ⟨0, 9002⟩, ⟨0, 9003⟩] : List SocketAddr).length → p ≠ q →
        ∃! ds, validChoices ([⟨0, 9001⟩, ⟨0, 9002⟩, ⟨0, 9003⟩] : List SocketAddr).length 2 ds =
            true ∧
          sampleInplace ([⟨0, 9001⟩, ⟨0, 9002⟩, ⟨0, 9003⟩] : List SocketAddr).length 2 ds =
            [p, q]) :=
  propagate_gossip_spec (Context.new Nat Nat ⟨0, 9000⟩ [⟨0, 9001⟩, ⟨0, 9002⟩, ⟨0, 9003⟩]) 8
    (fun _ => some [5]) [5] [1, 2] rfl (by decide) (by decide)

end RustBlockchain
